import Mathlib

/-!
Shallow embedding of the picovation firmware core (the pedal / tap-tempo /
transport state machine of `picovation.c`, latest revision: the variant with
play+pause flags, a batched `midi_tx` buffer and the byte-stream inbound
interpreter `tuh_midi_rx_cb`).

Machine integers are modelled as `Nat`; all timestamps are microseconds since
boot and are monotone, so the `uint64` subtractions in the source never wrap
and coincide with truncated `Nat` subtraction on the inputs considered.
The `midi_tx` array together with `index_tx` is modelled as the list of bytes
appended so far.
-/

namespace Picovation

/-- MIDI Clock status byte (0xF8). -/
def MIDI_CLOCK : Nat := 0xF8

/-- MIDI Play / Start status byte (0xFA). -/
def MIDI_PLAY : Nat := 0xFA

/-- MIDI Stop status byte (0xFC). -/
def MIDI_STOP : Nat := 0xFC

/-- MIDI Continue status byte (0xFB). -/
def MIDI_CONTINUE : Nat := 0xFB

/-- Program Change status on channel 16 (0xCF). -/
def MIDI_PRG_CHANGE : Nat := 0xCF

/-- Hold duration (µs) after which tap tempo is disabled on release. -/
def EXIT_FUNCTION : Nat := 2000000

/-- MIDI clock ticks per quarter note. -/
def NB_TICKS : Nat := 24

/-- Largest accepted inter-tick interval, µs (40 BPM). -/
def BPM40_TICKS : Nat := 62500

/-- Smallest accepted inter-tick interval, µs (240 BPM). -/
def BPM240_TICKS : Nat := 10417

/-- The `0xffffffffffffffff` sentinel stored into `time_to_send_next_clock`
to disable clock emission. -/
def UINT64_MAX : Nat := 0xffffffffffffffff

/-- The mutable firmware state: the globals `song`, `play`, `pause`,
`time_interval_between_ticks`, `time_to_send_next_clock`,
`time_of_last_clock`, the main-loop local `previous_press`, and the bytes
currently batched in `midi_tx`. -/
structure State where
  song : Nat
  play : Bool
  pause : Bool
  time_interval_between_ticks : Nat
  time_to_send_next_clock : Nat
  time_of_last_clock : Nat
  previous_press : Nat
  midi_tx : List Nat
  deriving DecidableEq

/-- Startup values of the globals. -/
def initState : State :=
  { song := 0
    play := false
    pause := false
    time_interval_between_ticks := 21000
    time_to_send_next_clock := UINT64_MAX
    time_of_last_clock := 0
    previous_press := 0
    midi_tx := [] }

/-- Model of `send_clock (when_to_send)`: if the current time has not reached
`time_to_send_next_clock` it is a no-op returning false; otherwise it appends
one `MIDI_CLOCK` byte to `midi_tx`, records `time_of_last_clock` and returns
true.  The current-time read inside the C function is the `time` argument. -/
def send_clock (st : State) (time : Nat) : State × Bool :=
  if time < st.time_to_send_next_clock then (st, false)
  else ({ st with midi_tx := st.midi_tx ++ [MIDI_CLOCK], time_of_last_clock := time }, true)

/-- The idiom `if (send_clock (time_to_send_next_clock)) time_to_send_next_clock =
time_of_last_clock + time_interval_between_ticks;` used at every call site of
`send_clock` in the main loop. -/
def clock_service (st : State) (now : Nat) : State × Bool :=
  let r := send_clock st now
  if r.2 then
    ({ r.1 with
        time_to_send_next_clock := r.1.time_of_last_clock + r.1.time_interval_between_ticks },
      true)
  else r

/-- The `pedal & TEMPO` branch of the main loop at a tap whose timestamp is
`this_press`: compute `(this_press - previous_press) / NB_TICKS`; if it lies
in the `[BPM240_TICKS, BPM40_TICKS]` window, adopt it as the interval, queue
`MIDI_STOP` (plus `MIDI_CONTINUE` when playing or paused), schedule the next
clock and run the `send_clock` idiom; in every case `previous_press` becomes
`this_press`. -/
def on_tap (st : State) (this_press : Nat) : State :=
  let new_interval := (this_press - st.previous_press) / NB_TICKS
  if new_interval ≤ BPM40_TICKS ∧ BPM240_TICKS ≤ new_interval then
    let accepted :=
      { st with
          time_interval_between_ticks := new_interval
          midi_tx := st.midi_tx ++ [MIDI_STOP]
                        ++ (if st.play || st.pause then [MIDI_CONTINUE] else [])
          time_to_send_next_clock := this_press + new_interval }
    { (clock_service accepted this_press).1 with previous_press := this_press }
  else
    { st with previous_press := this_press }

/-- The hold check after the tempo pedal is released: a press held from
`press_on` to `press_off` for at least `EXIT_FUNCTION` µs disables clock
emission and zeroes the tap baseline. -/
def tempo_release (st : State) (press_on press_off : Nat) : State :=
  if EXIT_FUNCTION ≤ press_off - press_on then
    { st with time_to_send_next_clock := UINT64_MAX, previous_press := 0 }
  else st

/-- The `pedal & (NEXT | PREV)` branch: update `song` with wraparound for
whichever of the two switches are in the mask, then queue
`[MIDI_PRG_CHANGE, song, MIDI_STOP]` plus `MIDI_PLAY` when playing or
paused. -/
def session_pedal (st : State) (hasNext hasPrev : Bool) : State :=
  if hasNext || hasPrev then
    let s1 := if hasNext then (if st.song = 31 then 0 else st.song + 1) else st.song
    let s2 := if hasPrev then (if s1 = 0 then 31 else s1 - 1) else s1
    { st with
        song := s2
        midi_tx := st.midi_tx ++ [MIDI_PRG_CHANGE, s2, MIDI_STOP]
                      ++ (if st.play || st.pause then [MIDI_PLAY] else []) }
  else st

/-- The `pedal & PLAY` branch: when playing or paused queue `MIDI_STOP` and
clear both flags, otherwise queue `MIDI_PLAY` and set `play`. -/
def play_pedal (st : State) : State :=
  if st.play || st.pause then
    { st with midi_tx := st.midi_tx ++ [MIDI_STOP], play := false, pause := false }
  else
    { st with midi_tx := st.midi_tx ++ [MIDI_PLAY], play := true }

/-- The `pedal & CONTINUE` branch: when playing or paused queue `MIDI_STOP`
and clear both flags, otherwise queue `MIDI_CONTINUE` and set `pause`. -/
def continue_pedal (st : State) : State :=
  if st.play || st.pause then
    { st with midi_tx := st.midi_tx ++ [MIDI_STOP], play := false, pause := false }
  else
    { st with midi_tx := st.midi_tx ++ [MIDI_CONTINUE], pause := true }

/-- Index advance of the inbound interpreter, the `switch (buffer[i] & 0xF0)`
of `tuh_midi_rx_cb`: 3 for channel-voice status high nibbles 8/9/A/B/E, 2 for
C/D, 1 otherwise. -/
def midi_skip (b : Nat) : Nat :=
  match b / 16 % 16 with
  | 8 | 9 | 10 | 11 | 14 => 3
  | 12 | 13 => 2
  | _ => 1

/-- Effect of one inbound status byte `b` on the transport state, the first
`switch (buffer[i])` of `tuh_midi_rx_cb`; `v` is `buffer[i+1]`, read (only)
in the Program Change case. -/
def rx_apply (st : State) (b v : Nat) : State :=
  if b = MIDI_CONTINUE then { st with pause := true }
  else if b = MIDI_PLAY then { st with play := true }
  else if b = MIDI_STOP then { st with play := false, pause := false }
  else if b = MIDI_PRG_CHANGE then
    (if v ≤ 31 then { st with song := v } else st)
  else st

/-- The `while (i < bytes_read)` scan of `tuh_midi_rx_cb` over the receive
buffer `buf` holding `n` filled bytes, starting at index `i`.  `fuel` bounds
the iteration count; since the index grows by at least 1 per step, `fuel = n`
from the entry point covers every iteration the C loop performs. -/
def rx_scan (buf : Nat → Nat) (n : Nat) : Nat → Nat → State → State
  | 0, _, st => st
  | fuel + 1, i, st =>
      if i < n then
        rx_scan buf n fuel (i + midi_skip (buf i)) (rx_apply st (buf i) (buf (i + 1)))
      else st

/-- The inbound message interpreter: scan a buffer of `n` filled bytes from
index 0. -/
def tuh_midi_rx (buf : Nat → Nat) (n : Nat) (st : State) : State :=
  rx_scan buf n n 0 st

/-- The buffer indices `tuh_midi_rx_cb` reads while scanning: at each
iteration it reads `buffer[i]`, and additionally `buffer[i+1]` whenever
`buffer[i]` is the Program Change status. -/
def rx_reads (buf : Nat → Nat) (n : Nat) : Nat → Nat → List Nat
  | 0, _ => []
  | fuel + 1, i =>
      if i < n then
        (if buf i = MIDI_PRG_CHANGE then [i, i + 1] else [i])
          ++ rx_reads buf n fuel (i + midi_skip (buf i))
      else []

/-- Indices read by the interpreter over a buffer of `n` filled bytes. -/
def tuh_midi_rx_reads (buf : Nat → Nat) (n : Nat) : List Nat :=
  rx_reads buf n n 0

/-- View a byte list as the receive buffer function (bytes past the filled
region read as 0). -/
def buf_of (l : List Nat) : Nat → Nat :=
  fun i => l.getD i 0

/-- The atomic state mutations of one main-loop pass: the four pedal
branches, the tempo-pedal release check, the periodic `send_clock` idiom,
one inbound-interpreter run, and the `index_tx = 0` flush after
transmission. -/
inductive Event where
  | session (hasNext hasPrev : Bool)
  | playPedal
  | continuePedal
  | tap (t : Nat)
  | release (press_on press_off : Nat)
  | tick (now : Nat)
  | rx (buf : Nat → Nat) (n : Nat)
  | flush

/-- Apply one event to the state. -/
def step (st : State) : Event → State
  | .session a b => session_pedal st a b
  | .playPedal => play_pedal st
  | .continuePedal => continue_pedal st
  | .tap t => on_tap st t
  | .release a b => tempo_release st a b
  | .tick now => (clock_service st now).1
  | .rx buf n => tuh_midi_rx buf n st
  | .flush => { st with midi_tx := [] }

/-- Events triggered by the local pedals and scheduler, as opposed to inbound
MIDI from the groovebox. -/
def Event.isLocal : Event → Bool
  | .rx _ _ => false
  | _ => true

/-- States reachable from startup under any event sequence. -/
inductive Reachable : State → Prop where
  | base : Reachable initState
  | next : ∀ s e, Reachable s → Reachable (step s e)


theorem clock_service_not_due (st : State) (now : Nat)
    (h : now < st.time_to_send_next_clock) :
    clock_service st now = (st, false) := by
  simp [clock_service, send_clock, h]

theorem clock_service_due (st : State) (now : Nat)
    (h : st.time_to_send_next_clock ≤ now) :
    clock_service st now =
      ({ st with
          midi_tx := st.midi_tx ++ [MIDI_CLOCK]
          time_of_last_clock := now
          time_to_send_next_clock := now + st.time_interval_between_ticks }, true) := by
  simp [clock_service, send_clock, Nat.not_lt.mpr h]

theorem on_tap_accept (st : State) (t : Nat)
    (h : (t - st.previous_press) / NB_TICKS ≤ BPM40_TICKS ∧
         BPM240_TICKS ≤ (t - st.previous_press) / NB_TICKS) :
    on_tap st t =
      { st with
          time_interval_between_ticks := (t - st.previous_press) / NB_TICKS
          midi_tx := st.midi_tx ++ [MIDI_STOP]
                        ++ (if st.play || st.pause then [MIDI_CONTINUE] else [])
          time_to_send_next_clock := t + (t - st.previous_press) / NB_TICKS
          previous_press := t } := by
  have hq : 0 < (t - st.previous_press) / NB_TICKS :=
    lt_of_lt_of_le (by decide) h.2
  unfold on_tap
  rw [if_pos h]
  dsimp only
  rw [clock_service_not_due]
  simpa using hq

theorem on_tap_reject (st : State) (t : Nat)
    (h : ¬((t - st.previous_press) / NB_TICKS ≤ BPM40_TICKS ∧
           BPM240_TICKS ≤ (t - st.previous_press) / NB_TICKS)) :
    on_tap st t = { st with previous_press := t } := by
  unfold on_tap
  rw [if_neg h]


theorem rx_apply_interval (st : State) (b v : Nat) :
    (rx_apply st b v).time_interval_between_ticks = st.time_interval_between_ticks := by
  unfold rx_apply
  split_ifs <;> rfl

theorem rx_scan_interval (buf : Nat → Nat) (n : Nat) :
    ∀ fuel i st,
      (rx_scan buf n fuel i st).time_interval_between_ticks
        = st.time_interval_between_ticks := by
  intro fuel
  induction fuel with
  | zero => intro i st; rfl
  | succ k ih =>
      intro i st
      unfold rx_scan
      split
      · rw [ih, rx_apply_interval]
      · rfl

theorem reachable_interval (s : State) (h : Reachable s) :
    BPM240_TICKS ≤ s.time_interval_between_ticks := by
  induction h with
  | base => decide
  | next s e _ ih =>
      cases e with
      | session a b =>
          show BPM240_TICKS ≤ (session_pedal s a b).time_interval_between_ticks
          unfold session_pedal
          split_ifs <;> exact ih
      | playPedal =>
          show BPM240_TICKS ≤ (play_pedal s).time_interval_between_ticks
          unfold play_pedal
          split_ifs <;> exact ih
      | continuePedal =>
          show BPM240_TICKS ≤ (continue_pedal s).time_interval_between_ticks
          unfold continue_pedal
          split_ifs <;> exact ih
      | tap t =>
          show BPM240_TICKS ≤ (on_tap s t).time_interval_between_ticks
          by_cases hc : (t - s.previous_press) / NB_TICKS ≤ BPM40_TICKS ∧
              BPM240_TICKS ≤ (t - s.previous_press) / NB_TICKS
          · rw [on_tap_accept s t hc]; exact hc.2
          · rw [on_tap_reject s t hc]; exact ih
      | release a b =>
          show BPM240_TICKS ≤ (tempo_release s a b).time_interval_between_ticks
          unfold tempo_release
          split_ifs <;> exact ih
      | tick now =>
          show BPM240_TICKS ≤ ((clock_service s now).1).time_interval_between_ticks
          rcases Nat.lt_or_ge now s.time_to_send_next_clock with hlt | hge
          · rw [clock_service_not_due s now hlt]; exact ih
          · rw [clock_service_due s now hge]; exact ih
      | rx buf n =>
          show BPM240_TICKS ≤ (tuh_midi_rx buf n s).time_interval_between_ticks
          unfold tuh_midi_rx
          rw [rx_scan_interval]
          exact ih
      | flush => exact ih


/-- C1: for consecutive tap timestamps `t1 < t2` (with `t1` the stored
baseline `previous_press`), if `(t2 - t1) / 24` lies in
`[BPM240_TICKS, BPM40_TICKS]` then after the tap the interval equals that
quotient and the next-clock deadline is `t2` plus that quotient; outside the
window both are unchanged; the baseline becomes `t2` unconditionally. -/
theorem tap_acceptance (st : State) (t2 : Nat) (h : st.previous_press < t2) :
    ((BPM240_TICKS ≤ (t2 - st.previous_press) / NB_TICKS ∧
        (t2 - st.previous_press) / NB_TICKS ≤ BPM40_TICKS) →
      (on_tap st t2).time_interval_between_ticks = (t2 - st.previous_press) / NB_TICKS ∧
      (on_tap st t2).time_to_send_next_clock = t2 + (t2 - st.previous_press) / NB_TICKS) ∧
    (¬(BPM240_TICKS ≤ (t2 - st.previous_press) / NB_TICKS ∧
        (t2 - st.previous_press) / NB_TICKS ≤ BPM40_TICKS) →
      (on_tap st t2).time_interval_between_ticks = st.time_interval_between_ticks ∧
      (on_tap st t2).time_to_send_next_clock = st.time_to_send_next_clock) ∧
    (on_tap st t2).previous_press = t2 := by
  by_cases hc : (t2 - st.previous_press) / NB_TICKS ≤ BPM40_TICKS ∧
      BPM240_TICKS ≤ (t2 - st.previous_press) / NB_TICKS
  · rw [on_tap_accept st t2 hc]
    refine ⟨fun _ => ⟨rfl, rfl⟩, fun hn => absurd ⟨hc.2, hc.1⟩ hn, rfl⟩
  · rw [on_tap_reject st t2 hc]
    refine ⟨fun hw => absurd ⟨hw.2, hw.1⟩ hc, fun _ => ⟨rfl, rfl⟩, rfl⟩

/-- Witness for C1 at the concrete taps 0 and 480000 µs: the quotient 20000
is inside the window, so the interval becomes 20000, the deadline 500000 and
the baseline 480000. -/
theorem tap_acceptance_witness :
    (on_tap initState 480000).time_interval_between_ticks = 20000 ∧
    (on_tap initState 480000).time_to_send_next_clock = 500000 ∧
    (on_tap initState 480000).previous_press = 480000 := by
  have h := tap_acceptance initState 480000 (by decide)
  refine ⟨?_, ?_, h.2.2⟩
  · exact (h.1 (by decide)).1
  · exact (h.1 (by decide)).2

/-- C3 counterexample: a first tap from the zero baseline taken 1,000,000 µs
after boot has quotient 41666, inside the window, so it does change the
stored interval — refuting "the delta from the zero baseline always yields a
candidate outside the window". -/
theorem first_tap_cex :
    initState.previous_press = 0 ∧
    (on_tap initState 1000000).time_interval_between_ticks
      ≠ initState.time_interval_between_ticks := by
  decide

/-- C3 amended: a first tap from a zero baseline leaves the interval and
deadline unchanged precisely when its quotient `t / 24` falls outside
`[BPM240_TICKS, BPM40_TICKS]` — which holds for every tap taken at least
2,000,000 µs after boot, hence for every tap following a held-pedal reset,
but not for taps between 250,008 and 1,500,023 µs after boot. -/
theorem first_tap_amended (st : State) (t : Nat)
    (h0 : st.previous_press = 0)
    (h : ¬(BPM240_TICKS ≤ t / NB_TICKS ∧ t / NB_TICKS ≤ BPM40_TICKS)) :
    ((on_tap st t).time_interval_between_ticks = st.time_interval_between_ticks ∧
      (on_tap st t).time_to_send_next_clock = st.time_to_send_next_clock) ∧
    (EXIT_FUNCTION ≤ t → ¬(BPM240_TICKS ≤ t / NB_TICKS ∧ t / NB_TICKS ≤ BPM40_TICKS)) := by
  constructor
  · have hc : ¬((t - st.previous_press) / NB_TICKS ≤ BPM40_TICKS ∧
        BPM240_TICKS ≤ (t - st.previous_press) / NB_TICKS) := by
      rw [h0]
      simpa [and_comm] using h
    rw [on_tap_reject st t hc]
    exact ⟨rfl, rfl⟩
  · intro hbig hw
    have : t / NB_TICKS ≤ BPM40_TICKS := hw.2
    unfold NB_TICKS BPM40_TICKS at this
    unfold EXIT_FUNCTION at hbig
    omega

/-- Witness for C3 amended at a tap 2,500,000 µs after boot: the quotient
104166 exceeds the window, so interval and deadline are unchanged. -/
theorem first_tap_amended_witness :
    ((on_tap initState 2500000).time_interval_between_ticks
        = initState.time_interval_between_ticks ∧
      (on_tap initState 2500000).time_to_send_next_clock
        = initState.time_to_send_next_clock) ∧
    (EXIT_FUNCTION ≤ 2500000 →
      ¬(BPM240_TICKS ≤ 2500000 / NB_TICKS ∧ 2500000 / NB_TICKS ≤ BPM40_TICKS)) := by
  exact first_tap_amended initState 2500000 (by decide) (by decide)

/-- C9: a tempo-pedal press held from `press_on` to `press_off` for at least
`EXIT_FUNCTION` µs sets the next-clock deadline to the `UINT64_MAX` disabled
value and zeroes the tap baseline on release; a shorter press changes
nothing. -/
theorem held_disable (st : State) (press_on press_off : Nat) :
    (EXIT_FUNCTION ≤ press_off - press_on →
      (tempo_release st press_on press_off).time_to_send_next_clock = UINT64_MAX ∧
      (tempo_release st press_on press_off).previous_press = 0) ∧
    (press_off - press_on < EXIT_FUNCTION →
      tempo_release st press_on press_off = st) := by
  unfold tempo_release
  constructor
  · intro hd
    rw [if_pos hd]
    exact ⟨rfl, rfl⟩
  · intro hd
    rw [if_neg (Nat.not_le.mpr hd)]

/-- Witness for C9: a press held from 1,000,000 to 3,000,000 µs disables the
clock and zeroes the baseline. -/
theorem held_disable_witness :
    (tempo_release initState 1000000 3000000).time_to_send_next_clock = UINT64_MAX ∧
    (tempo_release initState 1000000 3000000).previous_press = 0 := by
  exact (held_disable initState 1000000 3000000).1 (by decide)


/-- C2 counterexample: from startup, one Play pedal press (playing becomes
true) followed by the inbound buffer `[0xFB]` (Continue) reaches a state
with `playing` and `paused` both true — the inbound Continue case sets
`paused` without clearing `playing`, refuting the invariant as claimed. -/
theorem transport_invariant_cex :
    Reachable (step (step initState .playPedal) (.rx (buf_of [0xFB]) 1)) ∧
    (step (step initState .playPedal) (.rx (buf_of [0xFB]) 1)).play = true ∧
    (step (step initState .playPedal) (.rx (buf_of [0xFB]) 1)).pause = true := by
  refine ⟨Reachable.next _ _ (Reachable.next _ _ Reachable.base), by decide, by decide⟩

/-- C2 amended: every mutation by a local event (the Play and Pause/Continue
pedals, session change, tempo tap, release check, clock tick, buffer flush)
preserves `¬(playing ∧ paused)`; the inbound interpreter does not — inbound
0xFA sets `playing` without clearing `paused` and inbound 0xFB sets `paused`
without clearing `playing`. -/
theorem transport_invariant_local (s : State) (e : Event)
    (hinv : ¬(s.play = true ∧ s.pause = true)) (hloc : e.isLocal = true) :
    ¬((step s e).play = true ∧ (step s e).pause = true) := by
  cases e with
  | session a b =>
      show ¬((session_pedal s a b).play = true ∧ (session_pedal s a b).pause = true)
      unfold session_pedal
      split_ifs <;> exact hinv
  | playPedal =>
      show ¬((play_pedal s).play = true ∧ (play_pedal s).pause = true)
      unfold play_pedal
      split_ifs with hp
      · simp
      · simp only [Bool.or_eq_true, not_or] at hp
        simp [hp.2]
  | continuePedal =>
      show ¬((continue_pedal s).play = true ∧ (continue_pedal s).pause = true)
      unfold continue_pedal
      split_ifs with hp
      · simp
      · simp only [Bool.or_eq_true, not_or] at hp
        simp [hp.1]
  | tap t =>
      show ¬((on_tap s t).play = true ∧ (on_tap s t).pause = true)
      by_cases hc : (t - s.previous_press) / NB_TICKS ≤ BPM40_TICKS ∧
          BPM240_TICKS ≤ (t - s.previous_press) / NB_TICKS
      · rw [on_tap_accept s t hc]; exact hinv
      · rw [on_tap_reject s t hc]; exact hinv
  | release a b =>
      show ¬((tempo_release s a b).play = true ∧ (tempo_release s a b).pause = true)
      unfold tempo_release
      split_ifs <;> exact hinv
  | tick now =>
      show ¬(((clock_service s now).1).play = true ∧ ((clock_service s now).1).pause = true)
      rcases Nat.lt_or_ge now s.time_to_send_next_clock with hlt | hge
      · rw [clock_service_not_due s now hlt]; exact hinv
      · rw [clock_service_due s now hge]; exact hinv
  | rx buf n => simp [Event.isLocal] at hloc
  | flush => exact hinv

/-- Witness for C2 amended: from startup (both flags false) a Play pedal
press keeps the flags from being simultaneously true. -/
theorem transport_invariant_local_witness :
    ¬((step initState .playPedal).play = true ∧ (step initState .playPedal).pause = true) := by
  exact transport_invariant_local initState .playPedal (by decide) (by decide)

/-- C4 counterexample: at startup (song 0, not playing, not paused) a Prev
pedal event makes the song 31 but queues the three bytes
`[0xCF, 31, 0xFC]` — the trailing `MIDI_STOP` refutes "exactly the two bytes
`[0xCF, 31]`". -/
theorem prev_wrap_cex :
    (session_pedal initState false true).song = 31 ∧
    (session_pedal initState false true).midi_tx ≠ [0xCF, 31] ∧
    (session_pedal initState false true).midi_tx = [0xCF, 31, 0xFC] := by
  decide

/-- C4 amended: a Prev pedal event at song 0 makes the song 31 and appends
exactly `[0xCF, 31, 0xFC]` to the outgoing buffer, followed by one further
byte `0xFA` exactly when playing or paused. -/
theorem prev_wrap_amended (st : State) (h : st.song = 0) :
    (session_pedal st false true).song = 31 ∧
    (session_pedal st false true).midi_tx =
      st.midi_tx ++ [MIDI_PRG_CHANGE, 31, MIDI_STOP]
        ++ (if st.play || st.pause then [MIDI_PLAY] else []) := by
  unfold session_pedal
  simp [h]

/-- Witness for C4 amended at the startup state. -/
theorem prev_wrap_amended_witness :
    (session_pedal initState false true).song = 31 ∧
    (session_pedal initState false true).midi_tx =
      initState.midi_tx ++ [MIDI_PRG_CHANGE, 31, MIDI_STOP]
        ++ (if initState.play || initState.pause then [MIDI_PLAY] else []) := by
  exact prev_wrap_amended initState (by decide)

/-- C5: the clock-emission check (`send_clock` plus the deadline update at
its call sites): before the deadline it returns false and changes nothing;
at or past the deadline it appends exactly one `MIDI_CLOCK` byte, records
`now` as the last-clock time, moves the deadline to `now` plus the current
interval, and returns true. -/
theorem clock_service_spec (st : State) (now : Nat) :
    (now < st.time_to_send_next_clock → clock_service st now = (st, false)) ∧
    (st.time_to_send_next_clock ≤ now →
      clock_service st now =
        ({ st with
            midi_tx := st.midi_tx ++ [MIDI_CLOCK]
            time_of_last_clock := now
            time_to_send_next_clock := now + st.time_interval_between_ticks }, true)) := by
  exact ⟨clock_service_not_due st now, clock_service_due st now⟩

/-- Witness for C5: at startup with the deadline at `UINT64_MAX`, time 0 is
before the deadline and the check is a no-op; with the deadline at 0, time 7
triggers one clock byte and a deadline of `7 + 21000`. -/
theorem clock_service_spec_witness :
    clock_service initState 0 = (initState, false) ∧
    clock_service { initState with time_to_send_next_clock := 0 } 7 =
      ({ initState with
          midi_tx := [MIDI_CLOCK]
          time_of_last_clock := 7
          time_to_send_next_clock := 7 + 21000 }, true) := by
  constructor
  · exact (clock_service_spec initState 0).1 (by decide)
  · have h := (clock_service_spec { initState with time_to_send_next_clock := 0 } 7).2 (by decide)
    rw [h]
    decide

/-- C6: in every reachable state, running the clock-emission check twice
with the same `now` (deadline update applied in between) appends at most one
`MIDI_CLOCK` byte in total: a successful emission moves the deadline to
`now` plus the (always positive) interval, so the second check is a no-op. -/
theorem clock_idem (st : State) (now : Nat) (h : Reachable st) :
    ((clock_service (clock_service st now).1 now).1.midi_tx).length
      ≤ st.midi_tx.length + 1 := by
  have hi : BPM240_TICKS ≤ st.time_interval_between_ticks := reachable_interval st h
  rcases Nat.lt_or_ge now st.time_to_send_next_clock with hlt | hge
  · rw [clock_service_not_due st now hlt]
    simp only
    rw [clock_service_not_due st now hlt]
    simp only
    omega
  · rw [clock_service_due st now hge]
    simp only
    rw [clock_service_not_due]
    · simp
    · simp only
      have : 0 < st.time_interval_between_ticks := lt_of_lt_of_le (by decide) hi
      omega

/-- Witness for C6 at the startup state and time 0. -/
theorem clock_idem_witness :
    ((clock_service (clock_service initState 0).1 0).1.midi_tx).length
      ≤ initState.midi_tx.length + 1 := by
  exact clock_idem initState 0 Reachable.base


/-- C7: for any song in [0,31], a Next pedal event makes the song
`(song+1) mod 32` (31 wraps to 0) and a Prev pedal event makes it
`(song+31) mod 32` (0 wraps to 31); in both cases the Program Change status
followed by the new song value is queued. -/
theorem song_wrap (st : State) (h : st.song ≤ 31) :
    ((session_pedal st true false).song = (st.song + 1) % 32 ∧
      (session_pedal st true false).midi_tx =
        st.midi_tx ++ [MIDI_PRG_CHANGE, (st.song + 1) % 32, MIDI_STOP]
          ++ (if st.play || st.pause then [MIDI_PLAY] else [])) ∧
    ((session_pedal st false true).song = (st.song + 31) % 32 ∧
      (session_pedal st false true).midi_tx =
        st.midi_tx ++ [MIDI_PRG_CHANGE, (st.song + 31) % 32, MIDI_STOP]
          ++ (if st.play || st.pause then [MIDI_PLAY] else [])) := by
  have hnext : (if st.song = 31 then 0 else st.song + 1) = (st.song + 1) % 32 := by
    split <;> omega
  have hprev : (if st.song = 0 then 31 else st.song - 1) = (st.song + 31) % 32 := by
    split <;> omega
  unfold session_pedal
  simp [hnext, hprev]

/-- Witness for C7 at the wrap points: Next at song 31 gives 0, Prev at
song 0 gives 31. -/
theorem song_wrap_witness :
    (session_pedal { initState with song := 31 } true false).song = (31 + 1) % 32 ∧
    (session_pedal initState false true).song = (0 + 31) % 32 := by
  exact ⟨(song_wrap { initState with song := 31 } (by decide)).1.1,
    (song_wrap initState (by decide)).2.1⟩

/-- C8: an inbound Program Change `[0xCF, v]` sets the song to `v` exactly
when `v ≤ 31` and otherwise leaves it unchanged; inbound `[0xFA]` sets
`playing`, `[0xCF, 5]` sets the song to 5, `[0xCF, 40]` leaves it
unchanged. -/
theorem rx_prog_change (st : State) (v : Nat) (hv : v < 256) (hs : st.song ≤ 31) :
    ((tuh_midi_rx (buf_of [MIDI_PRG_CHANGE, v]) 2 st).song = v ↔ v ≤ 31) ∧
    (tuh_midi_rx (buf_of [MIDI_PLAY]) 1 st).play = true ∧
    (tuh_midi_rx (buf_of [MIDI_PRG_CHANGE, 5]) 2 st).song = 5 ∧
    (tuh_midi_rx (buf_of [MIDI_PRG_CHANGE, 40]) 2 st).song = st.song := by
  have heval : tuh_midi_rx (buf_of [MIDI_PRG_CHANGE, v]) 2 st
      = (if v ≤ 31 then { st with song := v } else st) := by
    simp [tuh_midi_rx, rx_scan, rx_apply, midi_skip, buf_of,
      MIDI_PRG_CHANGE, MIDI_CONTINUE, MIDI_PLAY, MIDI_STOP]
  refine ⟨?_, ?_, ?_, ?_⟩
  · rw [heval]
    split_ifs with hle
    · simp [hle]
    · simp only [iff_false, hle]
      intro heq
      omega
  · simp [tuh_midi_rx, rx_scan, rx_apply, midi_skip, buf_of,
      MIDI_PRG_CHANGE, MIDI_CONTINUE, MIDI_PLAY, MIDI_STOP]
  · simp [tuh_midi_rx, rx_scan, rx_apply, midi_skip, buf_of,
      MIDI_PRG_CHANGE, MIDI_CONTINUE, MIDI_PLAY, MIDI_STOP]
  · simp [tuh_midi_rx, rx_scan, rx_apply, midi_skip, buf_of,
      MIDI_PRG_CHANGE, MIDI_CONTINUE, MIDI_PLAY, MIDI_STOP]

/-- Witness for C8 at the startup state with data byte 5. -/
theorem rx_prog_change_witness :
    ((tuh_midi_rx (buf_of [MIDI_PRG_CHANGE, 5]) 2 initState).song = 5 ↔ (5 : Nat) ≤ 31) ∧
    (tuh_midi_rx (buf_of [MIDI_PLAY]) 1 initState).play = true ∧
    (tuh_midi_rx (buf_of [MIDI_PRG_CHANGE, 5]) 2 initState).song = 5 ∧
    (tuh_midi_rx (buf_of [MIDI_PRG_CHANGE, 40]) 2 initState).song = initState.song := by
  exact rx_prog_change initState 5 (by decide) (by decide)

/-- C10: on a 1-byte inbound buffer whose only byte is the Program Change
status, the interpreter reads index 1 — one past the filled region — so not
every index it reads is below `bytes_read`. -/
theorem rx_overread :
    tuh_midi_rx_reads (buf_of [MIDI_PRG_CHANGE]) 1 = [0, 1] ∧
    1 ∈ tuh_midi_rx_reads (buf_of [MIDI_PRG_CHANGE]) 1 := by
  decide

end Picovation
